import Mathlib

/-!
Shallow embedding of the Mandy state-synchronization and control-command
protocol of this repository.

Sources embedded here:
* `src/types/mandy.ts` (`src/unnamed/part_004`): `MandyMode`, `MandyStatus`,
  `MandyState`, `DEFAULT_MANDY_STATE`, `MandyControlPayload`.
* `src/pages/[domain]/[room].tsx`: `normalizeMandyState`, the `app-message`
  handler inside `startCall` (the `mandy/state` and `mandy/error` branches),
  `sendMandyControl`, `handleClearMandyError`.
* `src/components/MandyPanel.tsx` (`src/unnamed/part_000`):
  `handleDirectiveSave`.
* `src/pages/api/mandy/start.ts` and `src/pages/api/mandy/control.ts`
  (`src/unnamed/part_002`): the control-relay request handlers.

JavaScript numbers are modelled as `Int` (the code only ever tests
`typeof x === "number"` and compares with `>=`), strings as `String`,
and a JSON field value as the inductive `JsVal` below, with `vUndef`
standing for an absent property.
-/

/-- A JavaScript value as it can appear in a field of a deserialized JSON
payload. `vUndef` models an absent property (reading it yields `undefined`). -/
inductive JsVal where
  | vUndef
  | vNull
  | vBool (b : Bool)
  | vNum (n : Int)
  | vStr (s : String)
deriving DecidableEq

/-- JavaScript truthiness of a value (`Boolean(v)`): `undefined`, `null`,
`false`, `0` and the empty string are falsy. -/
def jsTruthy : JsVal → Bool
  | .vUndef => false
  | .vNull => false
  | .vBool b => b
  | .vNum n => decide (n ≠ 0)
  | .vStr s => !s.isEmpty

/-- `export type MandyMode = "silent" | "prompted" | "active"` -/
inductive MandyMode where
  | silent
  | prompted
  | active
deriving DecidableEq

/-- `export type MandyStatus = "disconnected" | "connecting" | "online" |
"degraded" | "error"` -/
inductive MandyStatus where
  | disconnected
  | connecting
  | online
  | degraded
  | stError
deriving DecidableEq

/-- `export interface MandyState` from `src/types/mandy.ts`. The optional
nullable fields `lockedBy? : string | null` etc. are modelled as
`Option String` (`none` for `null`/`undefined`). -/
structure MandyState where
  version : Int
  mode : MandyMode
  muted : Bool
  directive : String
  lockedBy : Option String
  updatedBy : Option String
  updatedAt : Option String
  status : MandyStatus
  pendingReason : Option String
deriving DecidableEq

/-- `DEFAULT_MANDY_STATE` from `src/types/mandy.ts`. -/
def DEFAULT_MANDY_STATE : MandyState :=
  { version := 0
    mode := MandyMode.silent
    muted := true
    directive := ""
    lockedBy := none
    updatedBy := none
    updatedAt := none
    status := MandyStatus.disconnected
    pendingReason := none }

/-- An arbitrary wire record restricted to the properties that
`normalizeMandyState` reads. A property that is absent from the JSON object
reads as `vUndef`, matching JavaScript property access on a plain object. -/
structure RawRecord where
  version : JsVal
  mode : JsVal
  muted : JsVal
  directive : JsVal
  lockedBy : JsVal
  updatedBy : JsVal
  updatedAt : JsVal
  status : JsVal
  pendingReason : JsVal
deriving DecidableEq

/-- The empty object `\x7b\x7d`: every property reads as `undefined`. -/
def emptyRawRecord : RawRecord :=
  { version := JsVal.vUndef
    mode := JsVal.vUndef
    muted := JsVal.vUndef
    directive := JsVal.vUndef
    lockedBy := JsVal.vUndef
    updatedBy := JsVal.vUndef
    updatedAt := JsVal.vUndef
    status := JsVal.vUndef
    pendingReason := JsVal.vUndef }

/-- `VALID_MANDY_MODES.includes(raw.mode) ? (raw.mode as MandyMode) : "silent"`
with `VALID_MANDY_MODES = ["silent", "prompted", "active"]`. -/
def jsToMandyMode : JsVal → MandyMode
  | .vStr "silent" => MandyMode.silent
  | .vStr "prompted" => MandyMode.prompted
  | .vStr "active" => MandyMode.active
  | _ => MandyMode.silent

/-- `VALID_MANDY_STATUS.includes(raw.status) ? (raw.status as MandyStatus) :
"disconnected"` with `VALID_MANDY_STATUS = ["disconnected", "connecting",
"online", "degraded", "error"]`. -/
def jsToMandyStatus : JsVal → MandyStatus
  | .vStr "disconnected" => MandyStatus.disconnected
  | .vStr "connecting" => MandyStatus.connecting
  | .vStr "online" => MandyStatus.online
  | .vStr "degraded" => MandyStatus.degraded
  | .vStr "error" => MandyStatus.stError
  | _ => MandyStatus.disconnected

/-- `typeof v === "number" ? v : 0` -/
def jsNumOrZero : JsVal → Int
  | .vNum n => n
  | _ => 0

/-- `typeof v === "boolean" ? v : d` -/
def jsBoolOr (v : JsVal) (d : Bool) : Bool :=
  match v with
  | .vBool b => b
  | _ => d

/-- `typeof v === "string" ? v : d` where `d` is a string default. -/
def jsStrOr (v : JsVal) (d : String) : String :=
  match v with
  | .vStr s => s
  | _ => d

/-- `typeof v === "string" ? v : d` where `d` is a nullable string default. -/
def jsOptStrOr (v : JsVal) (d : Option String) : Option String :=
  match v with
  | .vStr s => some s
  | _ => d

/-- `normalizeMandyState` from `src/pages/[domain]/[room].tsx`, lines 36-66.
`none` models a `null`/`undefined` argument (the `if (!raw)` branch); every
field of the result overrides the spread `...DEFAULT_MANDY_STATE`. -/
def normalizeMandyState (raw : Option RawRecord) : MandyState :=
  match raw with
  | none => DEFAULT_MANDY_STATE
  | some r =>
    { version := jsNumOrZero r.version
      mode := jsToMandyMode r.mode
      muted := jsBoolOr r.muted DEFAULT_MANDY_STATE.muted
      directive := jsStrOr r.directive DEFAULT_MANDY_STATE.directive
      lockedBy := jsOptStrOr r.lockedBy DEFAULT_MANDY_STATE.lockedBy
      updatedBy := jsOptStrOr r.updatedBy DEFAULT_MANDY_STATE.updatedBy
      updatedAt := jsOptStrOr r.updatedAt DEFAULT_MANDY_STATE.updatedAt
      status := jsToMandyStatus r.status
      pendingReason := none }

/-- The wire string of a `MandyMode` (JSON serialization). -/
def MandyMode.toWire : MandyMode → String
  | .silent => "silent"
  | .prompted => "prompted"
  | .active => "active"

/-- The wire string of a `MandyStatus` (JSON serialization). -/
def MandyStatus.toWire : MandyStatus → String
  | .disconnected => "disconnected"
  | .connecting => "connecting"
  | .online => "online"
  | .degraded => "degraded"
  | .stError => "error"

/-- JSON serialization of a nullable string field. -/
def optStrToJs : Option String → JsVal
  | none => JsVal.vNull
  | some s => JsVal.vStr s

/-- How a `MandyState` appears as a wire record when serialized to JSON and
read back (used to state idempotence of normalization). -/
def MandyState.toRaw (s : MandyState) : RawRecord :=
  { version := JsVal.vNum s.version
    mode := JsVal.vStr s.mode.toWire
    muted := JsVal.vBool s.muted
    directive := JsVal.vStr s.directive
    lockedBy := optStrToJs s.lockedBy
    updatedBy := optStrToJs s.updatedBy
    updatedAt := optStrToJs s.updatedAt
    status := JsVal.vStr s.status.toWire
    pendingReason := optStrToJs s.pendingReason }

/-- The observable client state held by the `Room` page component that the
protocol claims speak about: the `mandyState` and `mandyError` React states. -/
structure ClientState where
  mandyState : MandyState
  mandyError : Option String
deriving DecidableEq

/-- The `mandy/state` branch of the `app-message` handler in `startCall`
(`src/pages/[domain]/[room].tsx`, lines 170-180): normalize the incoming
candidate and adopt it exactly when
`normalized.version >= (prev?.version ?? 0)`. -/
def adoptBroadcast (prev : MandyState) (incoming : RawRecord) : MandyState :=
  let normalized := normalizeMandyState (some incoming)
  if prev.version ≤ normalized.version then normalized else prev

/-- An incoming `app-message` event, restricted to the branches the claims
refer to. `stateMsg none` models a `mandy/state` message whose `state`
payload is falsy (the `if (incomingState)` guard fails). -/
inductive AppMessage where
  | stateMsg (state : Option RawRecord)
  | errorMsg (message : Option String)
  | otherMsg
deriving DecidableEq

/-- The `app-message` handler of `startCall` as it acts on the observable
client state (`mandy/state` and `mandy/error` branches; transcription
messages never touch `mandyState`/`mandyError`). -/
def handleAppMessage (client : ClientState) (msg : AppMessage) : ClientState :=
  match msg with
  | .stateMsg none => client
  | .stateMsg (some incoming) =>
      { client with mandyState := adoptBroadcast client.mandyState incoming }
  | .errorMsg m =>
      { client with mandyError := some (m.getD "Mandy encountered an error.") }
  | .otherMsg => client

/-- Delivering a finite sequence of `mandy/state` broadcast candidates to an
observer, in order, through the adoption rule. -/
def deliverAll (init : MandyState) (cs : List RawRecord) : MandyState :=
  cs.foldl adoptBroadcast init

/-- The version a candidate carries after normalization. -/
def normVersion (c : RawRecord) : Int :=
  (normalizeMandyState (some c)).version

/-- The candidate the adoption rule ends up keeping: starting from a held
candidate `w`, each arriving candidate replaces the held one exactly when its
normalized version is `>=` the held one's. -/
def winnerAcc (w : RawRecord) (cs : List RawRecord) : RawRecord :=
  cs.foldl (fun acc c => if normVersion acc ≤ normVersion c then c else acc) w

/-- `MandyControlPayload` from `src/types/mandy.ts`. The `action` is kept as
its wire string. -/
structure MandyControlPayload where
  action : String
  mode : Option MandyMode
  directive : Option String
  reason : Option String
  requestedBy : Option String
  version : Option Int
deriving DecidableEq

/-- Outcome of the `fetch("/api/mandy/control")` round trip inside
`sendMandyControl`: a success response whose JSON has a truthy `state`, a
success response without one, or a failure (a non-ok response, whose thrown
message is the response's `error` text when present, or a network/parse
error). -/
inductive ControlFetchResult where
  | okState (raw : RawRecord)
  | okNoState
  | failed (message : Option String)
deriving DecidableEq

/-- `sendMandyControl` from `src/pages/[domain]/[room].tsx` (lines 219-273)
as it acts on the observable client state once the room address is present:
mark `pendingReason` with the action, then apply the fetch outcome. On
`okState` the response state is normalized and adopted unconditionally and
`mandyError` is cleared; on `okNoState` only `pendingReason` is reset; on
`failed` the error message is surfaced and `pendingReason` is reset. -/
def sendMandyControlStep (client : ClientState) (payload : MandyControlPayload)
    (result : ControlFetchResult) : ClientState :=
  let pending : MandyState :=
    { client.mandyState with pendingReason := some payload.action }
  match result with
  | .okState raw =>
      { mandyState := normalizeMandyState (some raw), mandyError := none }
  | .okNoState =>
      { client with mandyState := { pending with pendingReason := none } }
  | .failed message =>
      { mandyState := { pending with pendingReason := none }
        mandyError := some (message.getD "Failed to update Mandy.") }

/-- `handleClearMandyError = () => setMandyError(null)` from
`src/pages/[domain]/[room].tsx`. -/
def handleClearMandyError (client : ClientState) : ClientState :=
  { client with mandyError := none }

/-- `directiveDraft.trim()`: strip leading and trailing whitespace
(executable model of JavaScript `String.prototype.trim`, equal in effect to
`String.trim`, which does not reduce inside the kernel). -/
def jsTrim (s : String) : String :=
  String.mk
    (((s.data.dropWhile Char.isWhitespace).reverse.dropWhile
        Char.isWhitespace).reverse)

/-- `handleDirectiveSave` from `src/components/MandyPanel.tsx`
(`src/unnamed/part_000`, lines 70-82), returning the control payload it passes
to `onSendControl`, or `none` when it returns without sending. -/
def handleDirectiveSave (localUserName : String) (directiveDraft : String)
    (state : MandyState) : Option MandyControlPayload :=
  let trimmed := jsTrim directiveDraft
  if trimmed.isEmpty || trimmed == state.directive then
    none
  else
    some
      { action := "mandy:update_directive"
        mode := none
        directive := some trimmed
        reason := none
        requestedBy := some localUserName
        version := some state.version }

/-- Truthiness of `process.env.MANDY_SERVICE_URL` (`string | undefined`):
the `if (!serviceUrl)` guard fires on an absent or empty variable. -/
def serviceUrlSet : Option String → Bool
  | none => false
  | some s => !s.isEmpty

/-- What a relay handler does before any backend response is seen: respond
immediately with an error (no request is forwarded), or forward a request
body to the backend path. -/
inductive RelayStep where
  | reject (status : Nat) (message : String)
  | forward (path : String) (body : List (String × JsVal))
deriving DecidableEq

/-- The request-side half of the `start` relay handler
(`src/pages/api/mandy/start.ts`, lines 11-45): method check, then
`if (!domain || !room)` validation, then the `MANDY_SERVICE_URL` check, then
the forward of `\x7bdomain, room, token, directive\x7d` to `/api/start`. -/
def startHandlerStep (serviceUrl : Option String) (method : String)
    (domain room token directive : JsVal) : RelayStep :=
  if method ≠ "POST" then
    RelayStep.reject 405 "Method not allowed"
  else if !(jsTruthy domain && jsTruthy room) then
    RelayStep.reject 400 "Both domain and room are required to invite Mandy."
  else if !(serviceUrlSet serviceUrl) then
    RelayStep.reject 500 "MANDY_SERVICE_URL is not configured on the server."
  else
    RelayStep.forward "/api/start"
      [("domain", domain), ("room", room), ("token", token),
        ("directive", directive)]

/-- The request-side half of the `control` relay handler
(`src/unnamed/part_002`, lines 11-48): method check, then the
`MANDY_SERVICE_URL` check, then `if (!domain || !room)` validation, then the
forward of `\x7bdomain, room, ...rest\x7d` to `/api/control`. Note the check
order differs from the `start` handler. -/
def controlHandlerStep (serviceUrl : Option String) (method : String)
    (domain room : JsVal) (rest : List (String × JsVal)) : RelayStep :=
  if method ≠ "POST" then
    RelayStep.reject 405 "Method not allowed"
  else if !(serviceUrlSet serviceUrl) then
    RelayStep.reject 500 "MANDY_SERVICE_URL is not configured on the server."
  else if !(jsTruthy domain && jsTruthy room) then
    RelayStep.reject 400 "Both domain and room are required to control Mandy."
  else
    RelayStep.forward "/api/control"
      (("domain", domain) :: ("room", room) :: rest)

/-- The parsed JSON body of the backend's response as the relay reads it:
the `detail` and `error` properties it inspects, plus the remaining
properties (e.g. `state`) passed through untouched. -/
structure BackendBody where
  detail : JsVal
  err : JsVal
  rest : List (String × JsVal)
deriving DecidableEq

/-- The backend's HTTP response: `response.ok`, `response.status`, parsed
JSON body. -/
structure BackendResponse where
  ok : Bool
  status : Nat
  body : BackendBody
deriving DecidableEq

/-- What the relay sends back to its caller after forwarding: either the
backend body passed through unchanged, or an `\x7berror: message\x7d`
object. -/
inductive RelayBody where
  | passthrough (body : BackendBody)
  | errorBody (message : JsVal)
deriving DecidableEq

/-- The response-side half of both relay handlers
(`src/pages/api/mandy/start.ts` lines 47-58 / `src/unnamed/part_002` lines
50-61; identical up to the fallback message `defaultMessage`): on a non-ok
response, answer at the backend's status with
`typeof payload.detail === "string" ? payload.detail :
(payload.error || defaultMessage)`; on an ok response, answer 200 with the
backend body unchanged. -/
def relayBackendResponse (defaultMessage : String) (resp : BackendResponse) :
    Nat × RelayBody :=
  if resp.ok then
    (200, RelayBody.passthrough resp.body)
  else
    let message : JsVal :=
      match resp.body.detail with
      | .vStr s => JsVal.vStr s
      | _ => if jsTruthy resp.body.err then resp.body.err
             else JsVal.vStr defaultMessage
    (resp.status, RelayBody.errorBody message)

theorem jsNumOrZero_default (v : JsVal) (h : ∀ n, v ≠ JsVal.vNum n) :
    jsNumOrZero v = 0 := by
  cases v with
  | vUndef => rfl
  | vNull => rfl
  | vBool b => rfl
  | vNum n => exact (h n rfl).elim
  | vStr s => rfl

theorem jsBoolOr_default (v : JsVal) (d : Bool) (h : ∀ b, v ≠ JsVal.vBool b) :
    jsBoolOr v d = d := by
  cases v with
  | vUndef => rfl
  | vNull => rfl
  | vBool b => exact (h b rfl).elim
  | vNum n => rfl
  | vStr s => rfl

theorem jsStrOr_default (v : JsVal) (d : String) (h : ∀ s, v ≠ JsVal.vStr s) :
    jsStrOr v d = d := by
  cases v with
  | vUndef => rfl
  | vNull => rfl
  | vBool b => rfl
  | vNum n => rfl
  | vStr s => exact (h s rfl).elim

theorem jsOptStrOr_default (v : JsVal) (d : Option String)
    (h : ∀ s, v ≠ JsVal.vStr s) : jsOptStrOr v d = d := by
  cases v with
  | vUndef => rfl
  | vNull => rfl
  | vBool b => rfl
  | vNum n => rfl
  | vStr s => exact (h s rfl).elim

theorem jsToMandyMode_toWire (m : MandyMode) :
    jsToMandyMode (JsVal.vStr m.toWire) = m := by
  cases m <;> rfl

theorem jsToMandyStatus_toWire (st : MandyStatus) :
    jsToMandyStatus (JsVal.vStr st.toWire) = st := by
  cases st <;> rfl

theorem jsToMandyMode_default (v : JsVal)
    (h : ∀ m : MandyMode, v ≠ JsVal.vStr m.toWire) :
    jsToMandyMode v = MandyMode.silent := by
  unfold jsToMandyMode
  split
  · rfl
  · exact (h MandyMode.prompted rfl).elim
  · exact (h MandyMode.active rfl).elim
  · rfl

theorem jsToMandyStatus_default (v : JsVal)
    (h : ∀ st : MandyStatus, v ≠ JsVal.vStr st.toWire) :
    jsToMandyStatus v = MandyStatus.disconnected := by
  unfold jsToMandyStatus
  split
  · rfl
  · exact (h MandyStatus.connecting rfl).elim
  · exact (h MandyStatus.online rfl).elim
  · exact (h MandyStatus.degraded rfl).elim
  · exact (h MandyStatus.stError rfl).elim
  · rfl

/-- C3: `normalizeMandyState` is pure and total: for every input (`none`
models null/undefined; `emptyRawRecord` the empty object; any `RawRecord`
covers wrong-typed fields and out-of-enum mode/status strings) it returns a
well-formed `MandyState` in which every absent, wrong-typed, or out-of-enum
field is replaced by its default; `version`, `muted`, `directive`,
`lockedBy`, `updatedBy`, `updatedAt` are preserved verbatim whenever present
and well-typed; and `pendingReason` is always reset to `none` regardless of
the input. -/
theorem mandy_c3_normalize_total_and_preserving (raw : Option RawRecord) :
    (normalizeMandyState raw).pendingReason = none
    ∧ (raw = none → normalizeMandyState raw = DEFAULT_MANDY_STATE)
    ∧ ∀ r, raw = some r →
        ((∀ n, r.version = JsVal.vNum n →
            (normalizeMandyState raw).version = n)
        ∧ ((∀ n, r.version ≠ JsVal.vNum n) →
            (normalizeMandyState raw).version = 0)
        ∧ (∀ b, r.muted = JsVal.vBool b →
            (normalizeMandyState raw).muted = b)
        ∧ ((∀ b, r.muted ≠ JsVal.vBool b) →
            (normalizeMandyState raw).muted = DEFAULT_MANDY_STATE.muted)
        ∧ (∀ s, r.directive = JsVal.vStr s →
            (normalizeMandyState raw).directive = s)
        ∧ ((∀ s, r.directive ≠ JsVal.vStr s) →
            (normalizeMandyState raw).directive = "")
        ∧ (∀ s, r.lockedBy = JsVal.vStr s →
            (normalizeMandyState raw).lockedBy = some s)
        ∧ ((∀ s, r.lockedBy ≠ JsVal.vStr s) →
            (normalizeMandyState raw).lockedBy = none)
        ∧ (∀ s, r.updatedBy = JsVal.vStr s →
            (normalizeMandyState raw).updatedBy = some s)
        ∧ ((∀ s, r.updatedBy ≠ JsVal.vStr s) →
            (normalizeMandyState raw).updatedBy = none)
        ∧ (∀ s, r.updatedAt = JsVal.vStr s →
            (normalizeMandyState raw).updatedAt = some s)
        ∧ ((∀ s, r.updatedAt ≠ JsVal.vStr s) →
            (normalizeMandyState raw).updatedAt = none)
        ∧ (∀ m : MandyMode, r.mode = JsVal.vStr m.toWire →
            (normalizeMandyState raw).mode = m)
        ∧ ((∀ m : MandyMode, r.mode ≠ JsVal.vStr m.toWire) →
            (normalizeMandyState raw).mode = MandyMode.silent)
        ∧ (∀ st : MandyStatus, r.status = JsVal.vStr st.toWire →
            (normalizeMandyState raw).status = st)
        ∧ ((∀ st : MandyStatus, r.status ≠ JsVal.vStr st.toWire) →
            (normalizeMandyState raw).status = MandyStatus.disconnected)) := by
  refine ⟨?_, ?_, ?_⟩
  · cases raw <;> rfl
  · intro h; subst h; rfl
  · intro r hr
    subst hr
    refine ⟨?_, ?_, ?_, ?_, ?_, ?_, ?_, ?_, ?_, ?_, ?_, ?_, ?_, ?_, ?_, ?_⟩
    · intro n hn
      show jsNumOrZero r.version = n
      rw [hn]
      rfl
    · intro h
      show jsNumOrZero r.version = 0
      exact jsNumOrZero_default r.version h
    · intro b hb
      show jsBoolOr r.muted DEFAULT_MANDY_STATE.muted = b
      rw [hb]
      rfl
    · intro h
      show jsBoolOr r.muted DEFAULT_MANDY_STATE.muted = DEFAULT_MANDY_STATE.muted
      exact jsBoolOr_default r.muted _ h
    · intro s hs
      show jsStrOr r.directive DEFAULT_MANDY_STATE.directive = s
      rw [hs]
      rfl
    · intro h
      show jsStrOr r.directive DEFAULT_MANDY_STATE.directive = ""
      exact jsStrOr_default r.directive _ h
    · intro s hs
      show jsOptStrOr r.lockedBy DEFAULT_MANDY_STATE.lockedBy = some s
      rw [hs]
      rfl
    · intro h
      show jsOptStrOr r.lockedBy DEFAULT_MANDY_STATE.lockedBy = none
      exact jsOptStrOr_default r.lockedBy _ h
    · intro s hs
      show jsOptStrOr r.updatedBy DEFAULT_MANDY_STATE.updatedBy = some s
      rw [hs]
      rfl
    · intro h
      show jsOptStrOr r.updatedBy DEFAULT_MANDY_STATE.updatedBy = none
      exact jsOptStrOr_default r.updatedBy _ h
    · intro s hs
      show jsOptStrOr r.updatedAt DEFAULT_MANDY_STATE.updatedAt = some s
      rw [hs]
      rfl
    · intro h
      show jsOptStrOr r.updatedAt DEFAULT_MANDY_STATE.updatedAt = none
      exact jsOptStrOr_default r.updatedAt _ h
    · intro m hm
      show jsToMandyMode r.mode = m
      rw [hm]
      exact jsToMandyMode_toWire m
    · intro h
      show jsToMandyMode r.mode = MandyMode.silent
      exact jsToMandyMode_default r.mode h
    · intro st hst
      show jsToMandyStatus r.status = st
      rw [hst]
      exact jsToMandyStatus_toWire st
    · intro h
      show jsToMandyStatus r.status = MandyStatus.disconnected
      exact jsToMandyStatus_default r.status h

/-- A sample wire payload mixing well-typed, wrong-typed and out-of-enum
fields. -/
def sampleRaw : RawRecord :=
  { version := JsVal.vNum 7
    mode := JsVal.vStr "active"
    muted := JsVal.vStr "yes"
    directive := JsVal.vStr "take notes"
    lockedBy := JsVal.vNull
    updatedBy := JsVal.vStr "alice"
    updatedAt := JsVal.vNum 3
    status := JsVal.vStr "offline"
    pendingReason := JsVal.vStr "stale" }

/-- Witness for C3 at a concrete payload: the well-typed version 7 is kept,
the wrong-typed `muted`, the out-of-enum `status` and the incoming
`pendingReason` are defaulted. -/
theorem mandy_c3_witness :
    (normalizeMandyState (some sampleRaw)).pendingReason = none
    ∧ (normalizeMandyState (some sampleRaw)).version = 7
    ∧ (normalizeMandyState (some sampleRaw)).muted = true
    ∧ (normalizeMandyState (some sampleRaw)).status
        = MandyStatus.disconnected := by
  obtain ⟨h1, _, h3⟩ :=
    mandy_c3_normalize_total_and_preserving (some sampleRaw)
  obtain ⟨hv, _, _, hmu, _, _, _, _, _, _, _, _, _, _, _, hstd⟩ :=
    h3 sampleRaw rfl
  refine ⟨h1, hv 7 rfl, hmu ?_, hstd ?_⟩
  · intro b
    cases b <;> decide
  · intro st
    cases st <;> decide

theorem jsOptStrOr_optStrToJs (o : Option String) :
    jsOptStrOr (optStrToJs o) none = o := by
  cases o <;> rfl

/-- Normalizing the serialization of an already-normalized state (one whose
`pendingReason` is `none`) gives the state back. -/
theorem normalize_of_normalized (s : MandyState) (h : s.pendingReason = none) :
    normalizeMandyState (some s.toRaw) = s := by
  obtain ⟨v, mo, mu, d, lb, ub, ua, st, pr⟩ := s
  simp only [MandyState.toRaw, normalizeMandyState]
  simp only at h
  subst h
  simp only [jsNumOrZero, jsBoolOr, jsStrOr, jsToMandyMode_toWire,
    jsToMandyStatus_toWire, DEFAULT_MANDY_STATE, jsOptStrOr_optStrToJs]

/-- C4: `normalizeMandyState` is idempotent: re-normalizing the wire form of
any normalization result returns the same value. -/
theorem mandy_c4_normalize_idempotent (raw : Option RawRecord) :
    normalizeMandyState (some (normalizeMandyState raw).toRaw)
      = normalizeMandyState raw := by
  apply normalize_of_normalized
  cases raw <;> rfl

/-- A payload whose `version` field is the number `-1`. -/
def negVersionRaw : RawRecord :=
  { emptyRawRecord with version := JsVal.vNum (-1) }

/-- Counterexample to C5: `normalizeMandyState` preserves any numeric
`version` verbatim, so a negative wire version survives normalization and
the result violates the non-negativity invariant claimed for its output. -/
theorem mandy_c5_counterexample :
    (normalizeMandyState (some negVersionRaw)).version = -1
    ∧ ¬ (0 ≤ (normalizeMandyState (some negVersionRaw)).version) := by
  decide

/-- C5 (amended): `normalizeMandyState raw` has a non-negative `version`
whenever every numeric `version` carried by the input is non-negative (an
absent or non-numeric `version` defaults to 0); the code does not itself
clamp negative numeric versions. -/
theorem mandy_c5_version_nonneg_amended (raw : Option RawRecord)
    (h : ∀ r n, raw = some r → r.version = JsVal.vNum n → 0 ≤ n) :
    0 ≤ (normalizeMandyState raw).version := by
  cases raw with
  | none => decide
  | some r =>
    show 0 ≤ jsNumOrZero r.version
    cases hv : r.version with
    | vUndef => rfl
    | vNull => rfl
    | vBool b => rfl
    | vNum n => exact h r n rfl hv
    | vStr s => rfl

/-- Witness for the amended C5 at a concrete payload with version 7. -/
theorem mandy_c5_amended_witness :
    0 ≤ (normalizeMandyState (some sampleRaw)).version := by
  apply mandy_c5_version_nonneg_amended
  intro r n hr hn
  injection hr with hr2
  subst hr2
  have h7 : JsVal.vNum 7 = JsVal.vNum n := hn
  injection h7 with h7v
  omega

/-- C8: a failed control command is atomic on the client: on a failed
control round trip the `MandyState` keeps the last good value in every field
except the local-only `pendingReason`, and a `mandy/error` broadcast leaves
the `MandyState` untouched; in both cases only a dismissible error message
is surfaced, never adopted as state. -/
theorem mandy_c8_failed_command_atomic (client : ClientState)
    (payload : MandyControlPayload) (m : Option String) :
    (sendMandyControlStep client payload (ControlFetchResult.failed m)).mandyState
        = { client.mandyState with pendingReason := none }
    ∧ (sendMandyControlStep client payload (ControlFetchResult.failed m)).mandyError
        = some (m.getD "Failed to update Mandy.")
    ∧ (handleAppMessage client (AppMessage.errorMsg m)).mandyState
        = client.mandyState
    ∧ (handleAppMessage client (AppMessage.errorMsg m)).mandyError
        = some (m.getD "Mandy encountered an error.")
    ∧ handleClearMandyError (handleAppMessage client (AppMessage.errorMsg m))
        = { client with mandyError := none } :=
  ⟨rfl, rfl, rfl, rfl, rfl⟩

/-- C9: the directive-save handler issues no `mandy:update_directive`
command at all when the trimmed draft equals the current directive, so a
no-op directive submission cannot reach the backend (and hence cannot bump
`version`). -/
theorem mandy_c9_directive_noop (user draft : String) (st : MandyState)
    (h : jsTrim draft = st.directive) :
    handleDirectiveSave user draft st = none := by
  simp [handleDirectiveSave, h]

/-- Witness for C9: saving a draft that trims to the current directive sends
nothing. -/
theorem mandy_c9_witness :
    handleDirectiveSave "alice" "  focus  "
      { DEFAULT_MANDY_STATE with directive := "focus" } = none :=
  mandy_c9_directive_noop "alice" "  focus  "
    { DEFAULT_MANDY_STATE with directive := "focus" } (by decide)

/-- C10: the directive editor never emits a `mandy:update_directive` whose
directive is empty or whitespace-only: when the trimmed draft is empty the
handler returns without sending, and any payload it does emit carries the
(nonempty) trimmed draft — so the panel can never clear a directive. -/
theorem mandy_c10_no_empty_directive (user draft : String) (st : MandyState) :
    ((jsTrim draft).isEmpty = true → handleDirectiveSave user draft st = none)
    ∧ (∀ p, handleDirectiveSave user draft st = some p →
        p.action = "mandy:update_directive"
        ∧ p.directive = some (jsTrim draft)
        ∧ (jsTrim draft).isEmpty = false) := by
  constructor
  · intro h
    simp [handleDirectiveSave, h]
  · intro p hp
    simp [handleDirectiveSave] at hp
    obtain ⟨⟨hne, _⟩, hpe⟩ := hp
    subst hpe
    exact ⟨rfl, rfl, hne⟩

/-- Witness for C10: a whitespace-only draft sends nothing, and a nonempty
draft trims to something nonempty whenever a payload is emitted. -/
theorem mandy_c10_witness :
    handleDirectiveSave "alice" "   " DEFAULT_MANDY_STATE = none
    ∧ (jsTrim "focus").isEmpty = false := by
  constructor
  · exact (mandy_c10_no_empty_directive "alice" "   " DEFAULT_MANDY_STATE).1
      (by decide)
  · exact ((mandy_c10_no_empty_directive "alice" "focus"
      DEFAULT_MANDY_STATE).2
      { action := "mandy:update_directive"
        mode := none
        directive := some "focus"
        reason := none
        requestedBy := some "alice"
        version := some 0 } (by decide)).2.2

/-- A control-relay response body carrying a stale version-0 state. -/
def staleControlBody : RawRecord :=
  { emptyRawRecord with
      version := JsVal.vNum 0
      status := JsVal.vStr "online" }

/-- An observer that has already adopted version 1. -/
def clientAtVersionOne : ClientState :=
  { mandyState := { DEFAULT_MANDY_STATE with version := 1 }
    mandyError := none }

/-- The `mandy:mute` control payload used in the evaluation below. -/
def mutePayload : MandyControlPayload :=
  { action := "mandy:mute"
    mode := none
    directive := none
    reason := none
    requestedBy := some "alice"
    version := some 1 }

/-- C1 fails on the code: the push-broadcast path would discard this stale
version-0 candidate (third conjunct), but `sendMandyControl` adopts the
HTTP relay response unconditionally, with no version comparison, regressing
the observer from version 1 to version 0 — so adoption is not governed by
`candidate.version >= current.version` on the relay-response source and the
observer's version is not non-decreasing. -/
theorem mandy_c1_relay_response_regresses :
    clientAtVersionOne.mandyState.version = 1
    ∧ (sendMandyControlStep clientAtVersionOne mutePayload
        (ControlFetchResult.okState staleControlBody)).mandyState.version = 0
    ∧ adoptBroadcast clientAtVersionOne.mandyState staleControlBody
        = clientAtVersionOne.mandyState := by
  refine ⟨rfl, rfl, ?_⟩
  decide

/-- Counterexample to C6: a POST to the control relay endpoint with the room
address missing and `MANDY_SERVICE_URL` unset is answered with the
`UpstreamUnavailable` shape (500), not the `ValidationError` shape (400),
because the control handler checks the service URL before validating the
address. -/
theorem mandy_c6_counterexample :
    controlHandlerStep none "POST" JsVal.vUndef JsVal.vUndef []
      = RelayStep.reject 500 "MANDY_SERVICE_URL is not configured on the server."
    ∧ controlHandlerStep none "POST" JsVal.vUndef JsVal.vUndef []
      ≠ RelayStep.reject 400
          "Both domain and room are required to control Mandy." := by
  refine ⟨rfl, ?_⟩
  decide

/-- C6 (amended): for POST requests, the `start` handler validates the room
address first and the configuration second, while the `control` handler
checks the configuration first and the address second; whichever check fires
answers immediately with its error shape (400 address-validation or 500
not-configured) and nothing is forwarded to the backend. -/
theorem mandy_c6_relay_precheck_amended (url : Option String)
    (d r tok dir : JsVal) (rest : List (String × JsVal)) :
    ((jsTruthy d && jsTruthy r) = false →
        startHandlerStep url "POST" d r tok dir
          = RelayStep.reject 400
              "Both domain and room are required to invite Mandy.")
    ∧ ((jsTruthy d && jsTruthy r) = true → serviceUrlSet url = false →
        startHandlerStep url "POST" d r tok dir
          = RelayStep.reject 500
              "MANDY_SERVICE_URL is not configured on the server.")
    ∧ (serviceUrlSet url = false →
        controlHandlerStep url "POST" d r rest
          = RelayStep.reject 500
              "MANDY_SERVICE_URL is not configured on the server.")
    ∧ (serviceUrlSet url = true → (jsTruthy d && jsTruthy r) = false →
        controlHandlerStep url "POST" d r rest
          = RelayStep.reject 400
              "Both domain and room are required to control Mandy.") := by
  refine ⟨?_, ?_, ?_, ?_⟩
  · intro h
    simp [startHandlerStep, h]
  · intro h1 h2
    simp [startHandlerStep, h1, h2]
  · intro h
    simp [controlHandlerStep, h]
  · intro h1 h2
    simp [controlHandlerStep, h1, h2]

/-- Witness for the amended C6: with the service configured, a missing
domain is rejected as a 400 validation error by the start handler, and with
the service unconfigured the control handler rejects with the 500 shape. -/
theorem mandy_c6_amended_witness :
    startHandlerStep (some "http://mandy.internal") "POST" JsVal.vUndef
        (JsVal.vStr "room1") JsVal.vNull JsVal.vNull
      = RelayStep.reject 400
          "Both domain and room are required to invite Mandy."
    ∧ controlHandlerStep none "POST" (JsVal.vStr "misfits")
        (JsVal.vStr "room1") []
      = RelayStep.reject 500
          "MANDY_SERVICE_URL is not configured on the server." := by
  constructor
  · exact (mandy_c6_relay_precheck_amended (some "http://mandy.internal")
      JsVal.vUndef (JsVal.vStr "room1") JsVal.vNull JsVal.vNull []).1
      (by decide)
  · exact (mandy_c6_relay_precheck_amended none (JsVal.vStr "misfits")
      (JsVal.vStr "room1") JsVal.vNull JsVal.vNull []).2.2.1 (by decide)

/-- C7: once a command is forwarded, a non-ok backend response is answered
at the backend's own status with the backend's message — `detail` when that
is a string, else a truthy `error` value, else the endpoint's fallback —
and an ok backend response is passed through to the caller unchanged. -/
theorem mandy_c7_upstream_propagation (dm : String) (resp : BackendResponse) :
    (resp.ok = true →
        relayBackendResponse dm resp = (200, RelayBody.passthrough resp.body))
    ∧ (resp.ok = false →
        ((relayBackendResponse dm resp).1 = resp.status
        ∧ (∀ s, resp.body.detail = JsVal.vStr s →
            (relayBackendResponse dm resp).2
              = RelayBody.errorBody (JsVal.vStr s))
        ∧ ((∀ s, resp.body.detail ≠ JsVal.vStr s) →
            jsTruthy resp.body.err = true →
            (relayBackendResponse dm resp).2
              = RelayBody.errorBody resp.body.err)
        ∧ ((∀ s, resp.body.detail ≠ JsVal.vStr s) →
            jsTruthy resp.body.err = false →
            (relayBackendResponse dm resp).2
              = RelayBody.errorBody (JsVal.vStr dm)))) := by
  constructor
  · intro h
    simp [relayBackendResponse, h]
  · intro h
    refine ⟨?_, ?_, ?_, ?_⟩
    · simp [relayBackendResponse, h]
    · intro s hs
      simp [relayBackendResponse, h, hs]
    · intro hd he
      cases hdet : resp.body.detail with
      | vStr s => exact (hd s hdet).elim
      | vUndef => simp [relayBackendResponse, h, hdet, he]
      | vNull => simp [relayBackendResponse, h, hdet, he]
      | vBool b => simp [relayBackendResponse, h, hdet, he]
      | vNum n => simp [relayBackendResponse, h, hdet, he]
    · intro hd he
      cases hdet : resp.body.detail with
      | vStr s => exact (hd s hdet).elim
      | vUndef => simp [relayBackendResponse, h, hdet, he]
      | vNull => simp [relayBackendResponse, h, hdet, he]
      | vBool b => simp [relayBackendResponse, h, hdet, he]
      | vNum n => simp [relayBackendResponse, h, hdet, he]

/-- A backend rejection as produced by a stale-version or lock conflict. -/
def backendRejection : BackendResponse :=
  { ok := false
    status := 409
    body :=
      { detail := JsVal.vStr "Mandy controls are locked by bob."
        err := JsVal.vNull
        rest := [] } }

/-- Witness for C7: a 409 backend rejection is propagated at status 409
carrying the backend's `detail` text verbatim. -/
theorem mandy_c7_witness :
    (relayBackendResponse "Failed to update Mandy." backendRejection).1 = 409
    ∧ (relayBackendResponse "Failed to update Mandy." backendRejection).2
      = RelayBody.errorBody (JsVal.vStr "Mandy controls are locked by bob.") := by
  have h :=
    (mandy_c7_upstream_propagation "Failed to update Mandy." backendRejection).2
      rfl
  exact ⟨h.1, h.2.1 _ rfl⟩

theorem adoptBroadcast_normalized (w c : RawRecord) :
    adoptBroadcast (normalizeMandyState (some w)) c
      = normalizeMandyState
          (some (if normVersion w ≤ normVersion c then c else w)) := by
  show (if normVersion w ≤ normVersion c
        then normalizeMandyState (some c)
        else normalizeMandyState (some w)) = _
  by_cases h : normVersion w ≤ normVersion c
  · rw [if_pos h, if_pos h]
  · rw [if_neg h, if_neg h]

theorem deliverAll_from_normalized (cs : List RawRecord) : ∀ w,
    deliverAll (normalizeMandyState (some w)) cs
      = normalizeMandyState (some (winnerAcc w cs)) := by
  induction cs with
  | nil => intro w; rfl
  | cons c cs ih =>
      intro w
      show deliverAll (adoptBroadcast (normalizeMandyState (some w)) c) cs = _
      rw [adoptBroadcast_normalized]
      exact ih (if normVersion w ≤ normVersion c then c else w)

theorem normVersion_le_winnerAcc (cs : List RawRecord) : ∀ w,
    normVersion w ≤ normVersion (winnerAcc w cs)
    ∧ ∀ c ∈ cs, normVersion c ≤ normVersion (winnerAcc w cs) := by
  induction cs with
  | nil =>
      intro w
      refine ⟨le_refl _, ?_⟩
      intro c hc
      simp at hc
  | cons c cs ih =>
      intro w
      have hstep := ih (if normVersion w ≤ normVersion c then c else w)
      constructor
      · have hw : normVersion w
            ≤ normVersion (if normVersion w ≤ normVersion c then c else w) := by
          by_cases h : normVersion w ≤ normVersion c
          · rw [if_pos h]; exact h
          · rw [if_neg h]
        exact le_trans hw hstep.1
      · intro d hd
        rcases List.mem_cons.mp hd with rfl | hmem
        · have hc : normVersion d
              ≤ normVersion (if normVersion w ≤ normVersion d then d else w) := by
            by_cases h : normVersion w ≤ normVersion d
            · rw [if_pos h]
            · rw [if_neg h]
              exact le_of_lt (lt_of_not_le h)
          exact le_trans hc hstep.1
        · exact hstep.2 d hmem

theorem winnerAcc_last_max (cs : List RawRecord) : ∀ w,
    ∃ l1 l2, w :: cs = l1 ++ winnerAcc w cs :: l2
      ∧ ∀ d ∈ l2, normVersion d < normVersion (winnerAcc w cs) := by
  induction cs with
  | nil =>
      intro w
      refine ⟨[], [], rfl, ?_⟩
      intro d hd
      simp at hd
  | cons c cs ih =>
      intro w
      by_cases h : normVersion w ≤ normVersion c
      · have hw : winnerAcc w (c :: cs) = winnerAcc c cs := by
          show winnerAcc (if normVersion w ≤ normVersion c then c else w) cs = _
          rw [if_pos h]
        obtain ⟨l1, l2, heq, hlt⟩ := ih c
        refine ⟨w :: l1, l2, ?_, ?_⟩
        · rw [hw, List.cons_append]
          exact congrArg (List.cons w) heq
        · rw [hw]
          exact hlt
      · have hw : winnerAcc w (c :: cs) = winnerAcc w cs := by
          show winnerAcc (if normVersion w ≤ normVersion c then c else w) cs = _
          rw [if_neg h]
        obtain ⟨l1, l2, heq, hlt⟩ := ih w
        cases l1 with
        | nil =>
            have hhead : w = winnerAcc w cs := (List.cons.injEq _ _ _ _).mp heq |>.1
            have htail : cs = l2 := (List.cons.injEq _ _ _ _).mp heq |>.2
            refine ⟨[], c :: cs, ?_, ?_⟩
            · rw [hw, ← hhead]
              rfl
            · intro d hd
              rw [hw, ← hhead]
              rcases List.mem_cons.mp hd with rfl | hmem
              · exact lt_of_not_le h
              · have := hlt d (htail ▸ hmem)
                rw [← hhead] at this
                exact this
        | cons a l1t =>
            have hhead : w = a := by
              have := (List.cons.injEq _ _ _ _).mp (by simpa using heq)
              exact this.1
            have htail : cs = l1t ++ winnerAcc w cs :: l2 := by
              have := (List.cons.injEq _ _ _ _).mp (by simpa using heq)
              exact this.2
            refine ⟨w :: c :: l1t, l2, ?_, ?_⟩
            · rw [hw]
              show w :: c :: cs = w :: c :: (l1t ++ winnerAcc w cs :: l2)
              rw [← htail]
            · intro d hd
              rw [hw]
              exact hlt d hd

/-- C2: starting from the initial `DEFAULT_MANDY_STATE`, delivering any
nonempty finite sequence of candidate states (in any order, duplicates
allowed, each carrying a non-negative version as the data model requires)
through the broadcast adoption rule leaves the observer holding exactly the
normalization of the kept candidate `winnerAcc c cs`: that candidate occurs
in the sequence, its version is the maximum of all delivered versions, every
candidate delivered after its position has a strictly smaller version (ties
are resolved in favor of the last delivered), and the observer's final
version is that maximum. -/
theorem mandy_c2_monotonic_adoption (c : RawRecord) (cs : List RawRecord)
    (hc : 0 ≤ normVersion c) :
    deliverAll DEFAULT_MANDY_STATE (c :: cs)
        = normalizeMandyState (some (winnerAcc c cs))
    ∧ (deliverAll DEFAULT_MANDY_STATE (c :: cs)).version
        = normVersion (winnerAcc c cs)
    ∧ (∀ d ∈ c :: cs, normVersion d ≤ normVersion (winnerAcc c cs))
    ∧ ∃ l1 l2, c :: cs = l1 ++ winnerAcc c cs :: l2
        ∧ ∀ d ∈ l2, normVersion d < normVersion (winnerAcc c cs) := by
  have hadopt : adoptBroadcast DEFAULT_MANDY_STATE c
      = normalizeMandyState (some c) := by
    show (if DEFAULT_MANDY_STATE.version ≤ (normalizeMandyState (some c)).version
          then normalizeMandyState (some c)
          else DEFAULT_MANDY_STATE) = _
    exact if_pos hc
  have hrun : deliverAll DEFAULT_MANDY_STATE (c :: cs)
      = normalizeMandyState (some (winnerAcc c cs)) := by
    show deliverAll (adoptBroadcast DEFAULT_MANDY_STATE c) cs = _
    rw [hadopt]
    exact deliverAll_from_normalized cs c
  have hbound := normVersion_le_winnerAcc cs c
  refine ⟨hrun, ?_, ?_, winnerAcc_last_max cs c⟩
  · rw [hrun]
    rfl
  · intro d hd
    rcases List.mem_cons.mp hd with rfl | hmem
    · exact hbound.1
    · exact hbound.2 d hmem

/-- Candidate with version 1 and mode active. -/
def candA : RawRecord :=
  { emptyRawRecord with
      version := JsVal.vNum 1
      mode := JsVal.vStr "active" }

/-- Candidate with version 2 and status online. -/
def candB : RawRecord :=
  { emptyRawRecord with
      version := JsVal.vNum 2
      status := JsVal.vStr "online" }

/-- A stale duplicate carrying version 1 again, delivered last. -/
def candStale : RawRecord :=
  { emptyRawRecord with version := JsVal.vNum 1 }

/-- Witness for C2: delivering versions 1, 2, then a stale 1 leaves the
observer at the maximum version 2, the stale trailing candidate discarded. -/
theorem mandy_c2_witness :
    (deliverAll DEFAULT_MANDY_STATE [candA, candB, candStale]).version = 2 :=
  ((mandy_c2_monotonic_adoption candA [candB, candStale] (by decide)).2.1).trans
    (by decide)
